import Mathlib

/-!
Shallow embedding of `src/inventory_cli.py` (SQLite-backed inventory CLI).

The database state is modelled explicitly: the `items` and `stock_moves`
tables become lists of records, and the SQLite `AUTOINCREMENT` counters
become explicit `next_item_id` / `next_move_id` fields (SQLite assigns
rowids starting at 1).  The `at` column of `stock_moves` holds a timestamp
string in the fixed format `YYYY-MM-DD HH:MM:SS`; for strings of this fixed
shape the lexicographic order used by `ORDER BY at DESC` (BINARY collation)
coincides with chronological order, so the column is modelled as a `Nat`
clock value, supplied by the caller in place of `datetime.now()`.

Errors raised by the Python code (`ValueError` / `KeyError`) are modelled
as an explicit error type; the payload of each constructor is the data
interpolated into the corresponding Python message string.  A raised
exception aborts the enclosing `with conn:` block, which rolls the
transaction back, so an error result always comes with the unchanged
database state.
-/

namespace Inventory

/-- Row of the `items` table as carried around by the code (the Python
`Item` dataclass: id, sku, name, unit, min_qty). -/
structure Item where
  id : Nat
  sku : String
  name : String
  unit : String
  min_qty : Int
deriving Repr, DecidableEq

/-- Row of the `stock_moves` table.  The `at` column (a SQL keyword in
Lean) is named `at_`; see the header comment for why it is a `Nat`. -/
structure Move where
  id : Nat
  item_id : Nat
  change_qty : Int
  reason : String
  ref : String
  at_ : Nat
deriving Repr, DecidableEq

/-- The whole database: both tables plus the two autoincrement counters. -/
structure DB where
  items : List Item
  moves : List Move
  next_item_id : Nat
  next_move_id : Nat
deriving Repr, DecidableEq

/-- A freshly initialised database (`init_db`): empty tables, rowids
start at 1. -/
def emptyDB : DB := ⟨[], [], 1, 1⟩

/-- Models `get_item_by_sku`: `SELECT * FROM items WHERE sku = ?` followed by
`fetchone()` — the first row whose sku matches, if any. -/
def get_item_by_sku (db : DB) (sku : String) : Option Item :=
  db.items.find? (fun i => i.sku == sku)

/-- Row effect of `UPDATE items SET name = ?, unit = ?, min_qty = ?
WHERE sku = ?` on one row: rows matching the sku get the new attributes
(id and sku untouched), other rows are unchanged. -/
def updItem (sku name unit : String) (min_qty : Int) (i : Item) : Item :=
  if i.sku == sku then { i with name := name, unit := unit, min_qty := min_qty } else i

/-- Models `upsert_item`: if the sku exists, `UPDATE items SET name, unit,
min_qty WHERE sku = ?` and re-fetch the row (the Python code asserts the
re-fetch is not `None`, hence the `Option` result); otherwise `INSERT`
a new row and return it with the assigned autoincrement id. -/
def upsert_item (db : DB) (sku name unit : String) (min_qty : Int) : DB × Option Item :=
  match get_item_by_sku db sku with
  | some _ =>
      let db' : DB := { db with items := db.items.map (updItem sku name unit min_qty) }
      (db', get_item_by_sku db' sku)
  | none =>
      let item : Item := { id := db.next_item_id, sku := sku, name := name, unit := unit, min_qty := min_qty }
      ({ db with items := db.items ++ [item], next_item_id := db.next_item_id + 1 }, some item)

/-- Models `delete_item`: `DELETE FROM items WHERE sku = ?`, returning
`rowcount > 0`.  The `PRAGMA foreign_keys = ON` of `SCHEMA_SQL` is a
per-connection SQLite setting issued only by `init_db` on its own
connection; `connect()` never issues it, so on the connection that runs
this delete the `ON DELETE CASCADE` clause of `stock_moves` is NOT
enforced and the `stock_moves` rows of the deleted item survive. -/
def delete_item (db : DB) (sku : String) : DB × Bool :=
  let items' := db.items.filter (fun i => !(i.sku == sku))
  ({ db with items := items' }, items'.length < db.items.length)

/-- Models `add_move`: insert one `stock_moves` row, return its autoincrement
id (`cur.lastrowid`).  The caller supplies the clock value `at_` (the
Python default is `datetime.now()` formatted to seconds). -/
def add_move (db : DB) (item : Item) (change_qty : Int) (reason ref : String) (at_ : Nat) : DB × Nat :=
  let mid := db.next_move_id
  ({ db with
      moves := db.moves ++ [{ id := mid, item_id := item.id, change_qty := change_qty, reason := reason, ref := ref, at_ := at_ }],
      next_move_id := mid + 1 }, mid)

/-- Models `get_stock`: `SELECT COALESCE(SUM(change_qty), 0) FROM stock_moves
WHERE item_id = ?`. -/
def get_stock (db : DB) (item : Item) : Int :=
  (db.moves.filter (fun m => m.item_id == item.id)).foldl (fun s m => s + m.change_qty) 0

/-- Comparison used by `ORDER BY i.sku` (ascending). -/
def skuLe (a b : Item) : Prop := a.sku ≤ b.sku

instance : DecidableRel skuLe := fun a b => inferInstanceAs (Decidable (a.sku ≤ b.sku))

instance : IsTotal Item skuLe := ⟨fun a b => le_total a.sku b.sku⟩

instance : IsTrans Item skuLe := ⟨fun _ _ _ => le_trans⟩

/-- Models `list_items_with_stock`: the `LEFT JOIN ... GROUP BY i.id ORDER BY
i.sku` query — every item, paired with the sum of its movements
(`COALESCE 0`), ordered by sku ascending (`id` is the primary key, so
grouping by it yields one row per item). -/
def list_items_with_stock (db : DB) : List (Item × Int) :=
  (List.insertionSort skuLe db.items).map (fun i => (i, get_stock db i))

/-- Comparison used by `ORDER BY at DESC, id DESC`: `a` comes before `b`
when `a` has the later timestamp, or equal timestamps and the larger id. -/
def histOrder (a b : Move) : Prop := b.at_ < a.at_ ∨ (a.at_ = b.at_ ∧ b.id ≤ a.id)

instance : DecidableRel histOrder := fun a b =>
  inferInstanceAs (Decidable (b.at_ < a.at_ ∨ (a.at_ = b.at_ ∧ b.id ≤ a.id)))

instance : IsTotal Move histOrder := ⟨fun a b => by unfold histOrder; omega⟩

instance : IsTrans Move histOrder := ⟨fun a b c hab hbc => by unfold histOrder at *; omega⟩

/-- Models `iter_history`: `SELECT * FROM stock_moves WHERE item_id = ? ORDER BY
at DESC, id DESC LIMIT ?`.  The `limit` is a Python `int`; SQLite treats a
negative `LIMIT` as "no upper bound", hence the sign test. -/
def iter_history (db : DB) (item : Item) (limit : Int) : List Move :=
  let sorted := List.insertionSort histOrder (db.moves.filter (fun m => m.item_id == item.id))
  if limit < 0 then sorted else sorted.take limit.toNat

/-- The typed errors raised by the business-logic layer; each constructor
carries the data interpolated into the corresponding Python message. -/
inductive Err where
  | invalidQuantity
  | unknownItem (sku : String)
  | insufficientStock (sku : String) (current requested : Int)
deriving Repr, DecidableEq

/-- Models `ensure_stock_for_out`: recomputes current stock and raises the
insufficient-stock `ValueError` (carrying sku, current stock and the
requested quantity) when negatives are not allowed and `current - qty < 0`. -/
def ensure_stock_for_out (db : DB) (item : Item) (qty : Int) (allow_negative : Bool) : Option Err :=
  let current := get_stock db item
  if allow_negative = false ∧ current - qty < 0 then
    some (.insufficientStock item.sku current qty)
  else none

/-- Models `register_in`: reject non-positive qty, look up the item, then append
one movement with change `+qty`; an empty reason (the default argument)
falls back to the literal `"入庫"` (inbound), per `reason or "入庫"`.
An error leaves the database untouched (nothing was written before the
raise, and the enclosing transaction rolls back). -/
def register_in (db : DB) (now : Nat) (sku : String) (qty : Int) (reason ref : String) : DB × Except Err Nat :=
  if qty ≤ 0 then (db, .error .invalidQuantity)
  else
    match get_item_by_sku db sku with
    | none => (db, .error (.unknownItem sku))
    | some item =>
        let r := add_move db item qty (if reason = "" then "入庫" else reason) ref now
        (r.1, .ok r.2)

/-- Models `register_out`: reject non-positive qty, look up the item, run the
stock policy check, then append one movement with change `-qty`; an empty
reason falls back to `"出庫"` (outbound). -/
def register_out (db : DB) (now : Nat) (sku : String) (qty : Int) (reason ref : String) (allow_negative : Bool) : DB × Except Err Nat :=
  if qty ≤ 0 then (db, .error .invalidQuantity)
  else
    match get_item_by_sku db sku with
    | none => (db, .error (.unknownItem sku))
    | some item =>
        match ensure_stock_for_out db item qty allow_negative with
        | some e => (db, .error e)
        | none =>
            let r := add_move db item (-qty) (if reason = "" then "出庫" else reason) ref now
            (r.1, .ok r.2)

/-- Import errors: missing header columns, a non-integer `min_qty`
(carrying the stripped sku and the raw cell value, as in the Python
message), or a `KeyError` / `None`-value failure when a row lacks the
`sku` or `name` key (both are uncaught exceptions in the Python code;
either way the transaction rolls back). -/
inductive ImpErr where
  | missingColumns
  | invalidMinQty (sku : String) (raw : String)
  | rowKeyError (col : String)
deriving Repr, DecidableEq

/-- A CSV file as seen by `csv.DictReader`: the header row and the data
rows (each a list of cell strings). -/
structure CsvFile where
  header : List String
  rows : List (List String)
deriving Repr, DecidableEq

/-- The `required` header set of `import_items_csv`. -/
def requiredCols : List String := ["sku", "name", "unit", "min_qty"]

/-- Models `DictReader` row access: the dict built by zipping the header with
the cell values; a key beyond the end of a short row or absent from the
header yields `none` (Python: `None` restval, resp. `KeyError`). -/
def rowGet (header row : List String) (k : String) : Option String :=
  (header.zip row).lookup k

/-- The header test of `import_items_csv`: `set(fieldnames) < required`
is the PROPER-subset test on sets, i.e. every header column is required
and some required column is absent. -/
def headerIsProperSubset (header : List String) : Bool :=
  header.all (fun h => requiredCols.contains h) &&
    !(requiredCols.all (fun r => header.contains r))

/-- Python `str.strip()`: drop leading and trailing whitespace (modelled
on ASCII whitespace; written over the character list so that it reduces
inside the kernel, which `String.trim` does not). -/
def pyStrip (s : String) : String :=
  ⟨((s.data.dropWhile Char.isWhitespace).reverse.dropWhile Char.isWhitespace).reverse⟩

/-- Digit run of a Python `int()` literal: ASCII digits with single
underscores allowed between digits (`int("1_0") = 10`); `none` on the
empty run or a misplaced underscore.  The accumulator is `none` until the
first digit is read. -/
def pyDigitsCore : List Char → Option Nat → Option Nat
  | [], acc => acc
  | c :: rest, acc =>
      if c.isDigit then pyDigitsCore rest (some (acc.getD 0 * 10 + (c.toNat - 48)))
      else if c = '_' then
        match rest, acc with
        | d :: _, some n => if d.isDigit then pyDigitsCore rest (some n) else none
        | _, _ => none
      else none

/-- Models `int(s)` on a string: surrounding whitespace stripped, optional sign,
then a digit run (ASCII digits modelled; see `pyDigitsCore`). -/
def parsePyInt (s : String) : Option Int :=
  match (pyStrip s).data with
  | '+' :: rest => (pyDigitsCore rest none).map Int.ofNat
  | '-' :: rest => (pyDigitsCore rest none).map (fun n => -(n : Int))
  | cs => (pyDigitsCore cs none).map Int.ofNat

/-- One row of the import loop: read and strip `sku` and `name`
(`row["sku"]` — a missing key or `None` value aborts), default the unit
to `"pcs"` per `(row.get("unit") or "pcs").strip() or "pcs"`, parse
`min_qty` per `int(row.get("min_qty") or 0)`, then upsert. -/
def processRow (header : List String) (db : DB) (row : List String) : Except ImpErr DB :=
  match rowGet header row "sku" with
  | none => .error (.rowKeyError "sku")
  | some sku0 =>
      let sku := pyStrip sku0
      match rowGet header row "name" with
      | none => .error (.rowKeyError "name")
      | some name0 =>
          let name := pyStrip name0
          let unit0 := match rowGet header row "unit" with
            | none => "pcs"
            | some u => if u = "" then "pcs" else u
          let unit := if pyStrip unit0 = "" then "pcs" else pyStrip unit0
          let minRes : Except ImpErr Int :=
            match rowGet header row "min_qty" with
            | none => .ok 0
            | some s =>
                if s = "" then .ok 0
                else
                  match parsePyInt s with
                  | some n => .ok n
                  | none => .error (.invalidMinQty sku s)
          match minRes with
          | .error e => .error e
          | .ok min_qty => .ok (upsert_item db sku name unit min_qty).1

/-- The row loop of `import_items_csv`: upserts row by row, counting
processed rows; the first failing row aborts the loop. -/
def importLoop (header : List String) : DB → Nat → List (List String) → Except ImpErr (DB × Nat)
  | db, count, [] => .ok (db, count)
  | db, count, row :: rest =>
      match processRow header db row with
      | .error e => .error e
      | .ok db' => importLoop header db' (count + 1) rest

/-- Models `import_items_csv`: header check, then the row loop, all inside one
`with conn:` transaction — on any error the transaction rolls back and
the caller observes the database unchanged. -/
def import_items_csv (db : DB) (f : CsvFile) : DB × Except ImpErr Nat :=
  if headerIsProperSubset f.header then (db, .error .missingColumns)
  else
    match importLoop f.header db 0 f.rows with
    | .ok r => (r.1, .ok r.2)
    | .error e => (db, .error e)

/-- Models `export_stocks_csv`: one CSV data row per item, in the order produced
by `list_items_with_stock`; `below_min` is `str(qty < min_qty).lower()`,
i.e. the literal `"true"` or `"false"`. -/
def export_stocks_csv (db : DB) : List (List String) :=
  (list_items_with_stock db).map (fun p =>
    [p.1.sku, p.1.name, p.1.unit, toString p.2, toString p.1.min_qty,
     if p.2 < p.1.min_qty then "true" else "false"])

/-- Schema invariant used where uniqueness of the sku business key
matters: the `UNIQUE` constraint on `items.sku`. -/
def DB.WF (db : DB) : Prop :=
  db.items.Pairwise (fun a b => a.sku ≠ b.sku)

/-! ### Helper lemmas and concrete states shared by the witnesses -/

theorem foldl_add_change (l : List Move) (init : Int) :
    l.foldl (fun s m => s + m.change_qty) init = init + (l.map Move.change_qty).sum := by
  induction l generalizing init with
  | nil => simp
  | cons a t ih => simp only [List.foldl_cons, List.map_cons, List.sum_cons, ih]; ring

theorem get_stock_eq_sum (db : DB) (item : Item) :
    get_stock db item
      = ((db.moves.filter (fun m => m.item_id == item.id)).map Move.change_qty).sum := by
  unfold get_stock; rw [foldl_add_change]; simp

/-- Item row of the running single-item example state. -/
def itemA : Item := { id := 1, sku := "A-001", name := "part", unit := "pcs", min_qty := 0 }

/-- Example state: one registered item `A-001`, no movements. -/
def dbA : DB := (upsert_item emptyDB "A-001" "part" "pcs" 0).1

/-- Item row of the history example state. -/
def itemH : Item := { id := 1, sku := "H-1", name := "part", unit := "pcs", min_qty := 0 }

/-- Example state: fresh item `H-1`, inbound +3 at clock `t1`, then
outbound -1 at clock `t2`. -/
def dbH (t1 t2 : Nat) : DB :=
  (register_out ((register_in ((upsert_item emptyDB "H-1" "part" "pcs" 0).1) t1 "H-1" 3 "" "").1)
    t2 "H-1" 1 "" "" false).1

/-! ### Claim theorems -/

/-- Claim C2: for every item, current stock equals the sum of change_qty
over the movements owned by that item, equals 0 when the item owns no
movement, and is recomputed from the movement table on read in a way that
does not depend on the order in which movements were inserted (invariance
under permutation of the table). -/
theorem current_stock_spec (db : DB) (item : Item) :
    get_stock db item
        = ((db.moves.filter (fun m => m.item_id == item.id)).map Move.change_qty).sum
      ∧ (db.moves.filter (fun m => m.item_id == item.id) = [] → get_stock db item = 0)
      ∧ ∀ moves' : List Move, db.moves.Perm moves' →
          get_stock { db with moves := moves' } item = get_stock db item := by
  refine ⟨get_stock_eq_sum db item, ?_, ?_⟩
  · intro h; rw [get_stock_eq_sum, h]; rfl
  · intro moves' hp
    rw [get_stock_eq_sum, get_stock_eq_sum]
    exact ((hp.symm.filter _).map _).sum_eq

/-- Witness for C2 at a concrete state: the stock of `H-1` is unchanged
when its two movements are read in the opposite order. -/
theorem current_stock_spec_witness :
    get_stock { dbH 10 20 with
        moves := [{ id := 2, item_id := 1, change_qty := -1, reason := "出庫", ref := "", at_ := 20 },
                  { id := 1, item_id := 1, change_qty := 3, reason := "入庫", ref := "", at_ := 10 }] } itemH
      = get_stock (dbH 10 20) itemH :=
  (current_stock_spec (dbH 10 20) itemH).2.2 _ (by decide)

/-- Claim C10: in both register functions the quantity check precedes the
item-existence check, so any non-positive qty yields InvalidQuantity with
the database unchanged, whether or not the sku is registered. -/
theorem quantity_check_precedes_lookup (db : DB) (now : Nat) (sku : String)
    (qty : Int) (reason ref : String) (allow_negative : Bool) (h : qty ≤ 0) :
    register_in db now sku qty reason ref = (db, .error .invalidQuantity) ∧
    register_out db now sku qty reason ref allow_negative = (db, .error .invalidQuantity) := by
  refine ⟨?_, ?_⟩
  · unfold register_in; rw [if_pos h]
  · unfold register_out; rw [if_pos h]

/-- Witness for C10: an unregistered sku together with qty 0 yields
InvalidQuantity (not UnknownItem) on both operations. -/
theorem quantity_check_precedes_lookup_witness :
    get_item_by_sku emptyDB "GHOST" = none ∧
    register_in emptyDB 0 "GHOST" 0 "" "" = (emptyDB, .error .invalidQuantity) ∧
    register_out emptyDB 0 "GHOST" 0 "" "" false = (emptyDB, .error .invalidQuantity) :=
  ⟨rfl, quantity_check_precedes_lookup emptyDB 0 "GHOST" 0 "" "" false (by decide)⟩

/-- Claim C8: register_inbound rejects every non-positive qty with
InvalidQuantity and every unregistered sku with UnknownItem, and on
success appends exactly one movement with change +qty, reason defaulting
to "入庫" (inbound) when the caller supplies none, returning the new
movement id. -/
theorem register_in_spec (db : DB) (now : Nat) (sku : String) (qty : Int)
    (reason ref : String) :
    (qty ≤ 0 → register_in db now sku qty reason ref = (db, .error .invalidQuantity)) ∧
    (0 < qty → get_item_by_sku db sku = none →
      register_in db now sku qty reason ref = (db, .error (.unknownItem sku))) ∧
    (∀ item, 0 < qty → get_item_by_sku db sku = some item →
      register_in db now sku qty reason ref =
        ({ db with
            moves := db.moves ++
              [⟨db.next_move_id, item.id, qty,
                if reason = "" then "入庫" else reason, ref, now⟩],
            next_move_id := db.next_move_id + 1 }, .ok db.next_move_id)) := by
  refine ⟨?_, ?_, ?_⟩
  · intro h; unfold register_in; rw [if_pos h]
  · intro h hn; unfold register_in; rw [if_neg (not_le.mpr h), hn]
  · intro item h hs; unfold register_in; rw [if_neg (not_le.mpr h), hs]; rfl

/-- Witness for C8 at the single-item state: a successful inbound with
the default (empty) reason, an unknown sku, and a zero quantity. -/
theorem register_in_spec_witness :
    register_in dbA 7 "A-001" 5 "" "PO-1"
      = ({ dbA with
            moves := [⟨1, 1, 5, "入庫", "PO-1", 7⟩],
            next_move_id := 2 }, .ok 1) ∧
    register_in dbA 7 "ZZ-9" 5 "" "" = (dbA, .error (.unknownItem "ZZ-9")) ∧
    register_in dbA 7 "A-001" 0 "" "" = (dbA, .error .invalidQuantity) :=
  ⟨(register_in_spec dbA 7 "A-001" 5 "" "PO-1").2.2 itemA (by decide) rfl,
   (register_in_spec dbA 7 "ZZ-9" 5 "" "").2.1 (by decide) rfl,
   (register_in_spec dbA 7 "A-001" 0 "" "").1 (by decide)⟩

/-- Claim C1: for a registered item and strictly positive qty,
register_outbound with allow_negative=false fails with InsufficientStock
(carrying the sku, the current stock and the requested quantity, with the
database — hence the movement log and the stock — unchanged) exactly when
current_stock - qty < 0, and otherwise succeeds; with allow_negative=true
it succeeds at every stock level, appending a movement with change -qty,
so the stock drops by qty (from stock 0, an outbound of 1 leaves -1). -/
theorem register_out_policy (db : DB) (now : Nat) (sku : String) (qty : Int)
    (reason ref : String) (item : Item)
    (hitem : get_item_by_sku db sku = some item) (hq : 0 < qty) :
    (get_stock db item - qty < 0 →
      register_out db now sku qty reason ref false
        = (db, .error (.insufficientStock item.sku (get_stock db item) qty))) ∧
    (0 ≤ get_stock db item - qty →
      register_out db now sku qty reason ref false
        = ({ db with
              moves := db.moves ++
                [⟨db.next_move_id, item.id, -qty,
                  if reason = "" then "出庫" else reason, ref, now⟩],
              next_move_id := db.next_move_id + 1 }, .ok db.next_move_id)) ∧
    (register_out db now sku qty reason ref true
        = ({ db with
              moves := db.moves ++
                [⟨db.next_move_id, item.id, -qty,
                  if reason = "" then "出庫" else reason, ref, now⟩],
              next_move_id := db.next_move_id + 1 }, .ok db.next_move_id)) ∧
    (get_stock (register_out db now sku qty reason ref true).1 item
        = get_stock db item - qty) := by
  have hforbid : get_stock db item - qty < 0 →
      ensure_stock_for_out db item qty false
        = some (.insufficientStock item.sku (get_stock db item) qty) := by
    intro h
    simp only [ensure_stock_for_out]
    rw [if_pos ⟨trivial, h⟩]
  have hpass : 0 ≤ get_stock db item - qty →
      ensure_stock_for_out db item qty false = none := by
    intro h
    simp only [ensure_stock_for_out]
    rw [if_neg (fun hc => absurd hc.2 (not_lt.mpr h))]
  have hallow : ensure_stock_for_out db item qty true = none := by
    simp only [ensure_stock_for_out]
    rw [if_neg (fun hc => Bool.noConfusion hc.1)]
  have h3 : register_out db now sku qty reason ref true
      = ({ db with
            moves := db.moves ++
              [⟨db.next_move_id, item.id, -qty,
                if reason = "" then "出庫" else reason, ref, now⟩],
            next_move_id := db.next_move_id + 1 }, .ok db.next_move_id) := by
    unfold register_out
    rw [if_neg (not_le.mpr hq), hitem]
    simp only [hallow]
    rfl
  refine ⟨?_, ?_, h3, ?_⟩
  · intro h
    unfold register_out
    rw [if_neg (not_le.mpr hq), hitem]
    simp only [hforbid h]
  · intro h
    unfold register_out
    rw [if_neg (not_le.mpr hq), hitem]
    simp only [hpass h]
    rfl
  · rw [h3]
    simp only [get_stock_eq_sum]
    simp [List.filter_append]
    omega

/-- Witness for C1 at the single-item state with stock 0: outbound 1 is
rejected with the full payload, and with allow_negative it drives the
stock to -1. -/
theorem register_out_policy_witness :
    register_out dbA 0 "A-001" 1 "" "" false
      = (dbA, .error (.insufficientStock "A-001" 0 1)) ∧
    get_stock (register_out dbA 0 "A-001" 1 "" "" true).1 itemA = -1 := by
  have h := register_out_policy dbA 0 "A-001" 1 "" "" itemA rfl (by decide)
  exact ⟨h.1 (by decide), h.2.2.2⟩

/-- Example state for the deletion claim: item `A-001` registered, one
inbound movement, then `delete-item A-001`. -/
def dbDel : DB × Bool :=
  delete_item ((register_in ((upsert_item emptyDB "A-001" "part" "pcs" 0).1) 0 "A-001" 1 "" "").1)
    "A-001"

/-- Claim C3 fails on the code: after registering item `A-001`, adding
one movement and deleting the item, the delete reports a removed row and
the items table is empty, yet the movement row survives as an orphan —
`connect()` never re-issues the per-connection `PRAGMA foreign_keys = ON`,
so the `ON DELETE CASCADE` declared in `SCHEMA_SQL` is not enforced. -/
theorem delete_item_leaves_orphan_moves :
    dbDel.2 = true ∧ dbDel.1.items = [] ∧
    dbDel.1.moves = [⟨1, 1, 1, "入庫", "", 0⟩] := by decide

/-- Import file whose header lacks `min_qty` but has an extra column. -/
def badHeaderFile : CsvFile :=
  ⟨["sku", "name", "unit", "extra"], [["A-001", "part", "pcs", "whatever"]]⟩

/-- Claim C5 fails on the code: the header check uses the PROPER-subset
test `set(fieldnames) < required`, so a header that is missing `min_qty`
but carries an extra column slips through: the import succeeds, processes
the row, and silently defaults `min_qty` to 0 instead of failing with
MissingColumns. -/
theorem import_missing_column_not_detected :
    headerIsProperSubset badHeaderFile.header = false ∧
    (import_items_csv emptyDB badHeaderFile).2 = .ok 1 ∧
    (import_items_csv emptyDB badHeaderFile).1.items
      = [⟨1, "A-001", "part", "pcs", 0⟩] :=
  ⟨by decide, rfl, by decide⟩

/-- A row fails the type validation of the import: its `min_qty` cell is
present and non-empty (so the `or 0` fallback does not apply) but does
not parse as an integer. -/
def minQtyFailsB (header row : List String) : Bool :=
  match rowGet header row "min_qty" with
  | none => false
  | some s => (!(s == "")) && (parsePyInt s).isNone

theorem processRow_error_of_fail (header : List String) (db : DB) (row : List String)
    (hf : minQtyFailsB header row = true) :
    ∃ e, processRow header db row = .error e := by
  unfold minQtyFailsB at hf
  cases hsku : rowGet header row "sku" with
  | none => exact ⟨.rowKeyError "sku", by unfold processRow; rw [hsku]⟩
  | some sku0 =>
    cases hname : rowGet header row "name" with
    | none => exact ⟨.rowKeyError "name", by unfold processRow; rw [hsku, hname]⟩
    | some name0 =>
      cases hmin : rowGet header row "min_qty" with
      | none => rw [hmin] at hf; exact absurd hf (by simp)
      | some s =>
        rw [hmin] at hf
        rw [Bool.and_eq_true, Bool.not_eq_true', beq_eq_false_iff_ne,
          Option.isNone_iff_eq_none] at hf
        obtain ⟨hs, hparse⟩ := hf
        refine ⟨.invalidMinQty (pyStrip sku0) s, ?_⟩
        simp only [processRow, hsku, hname, hmin, if_neg hs, hparse]

theorem importLoop_error_of_fail (header : List String) (rows : List (List String)) :
    ∀ (db : DB) (count : Nat), (∃ row ∈ rows, minQtyFailsB header row = true) →
      ∃ e, importLoop header db count rows = .error e := by
  induction rows with
  | nil => intro db count h; rcases h with ⟨r, hr, _⟩; cases hr
  | cons row rest ih =>
    intro db count h
    rcases h with ⟨r, hr, hfail⟩
    rcases List.mem_cons.mp hr with rfl | hmem
    · obtain ⟨e, he⟩ := processRow_error_of_fail header db r hfail
      unfold importLoop
      rw [he]
      exact ⟨e, rfl⟩
    · cases hp : processRow header db row with
      | error e => unfold importLoop; rw [hp]; exact ⟨e, rfl⟩
      | ok db' =>
        obtain ⟨e, he⟩ := ih db' (count + 1) ⟨r, hmem, hfail⟩
        unfold importLoop
        rw [hp]
        exact ⟨e, he⟩

/-- Claim C4: import is all-or-nothing — whenever some input row fails
the min_qty type validation, the whole import returns an error and the
database is exactly the one from before the call (the enclosing
transaction rolls back, so earlier rows of the same file are not left
committed). -/
theorem import_items_all_or_nothing (db : DB) (f : CsvFile)
    (h : ∃ row ∈ f.rows, minQtyFailsB f.header row = true) :
    (import_items_csv db f).1 = db ∧ ∃ e, (import_items_csv db f).2 = .error e := by
  unfold import_items_csv
  cases hh : headerIsProperSubset f.header with
  | true => exact ⟨rfl, .missingColumns, rfl⟩
  | false =>
    obtain ⟨e, he⟩ := importLoop_error_of_fail f.header f.rows db 0 h
    rw [he]
    exact ⟨rfl, e, rfl⟩

/-- Import file whose second row has the non-integer min_qty "abc". -/
def badRowFile : CsvFile :=
  ⟨["sku", "name", "unit", "min_qty"],
   [["B-1", "good", "pcs", "2"], ["C-1", "bad", "pcs", "abc"]]⟩

/-- Witness for C4: importing a file whose second row is invalid leaves
the initially empty database empty — the valid first row is not
committed — and reports an error. -/
theorem import_items_all_or_nothing_witness :
    (import_items_csv emptyDB badRowFile).1 = emptyDB ∧
    ∃ e, (import_items_csv emptyDB badRowFile).2 = .error e :=
  import_items_all_or_nothing emptyDB badRowFile
    ⟨["C-1", "bad", "pcs", "abc"], by decide, by decide⟩

theorem updItem_sku (sku n u : String) (m : Int) (i : Item) :
    (updItem sku n u m i).sku = i.sku := by
  unfold updItem; split <;> rfl

theorem updItem_id (sku n u : String) (m : Int) (i : Item) :
    (updItem sku n u m i).id = i.id := by
  unfold updItem; split <;> rfl

theorem updItem_beq (sku n u : String) (m : Int) (i : Item) :
    ((updItem sku n u m i).sku == sku) = (i.sku == sku) := by
  rw [updItem_sku]

theorem updItem_of_pos (sku n u : String) (m : Int) (i : Item)
    (h : (i.sku == sku) = true) :
    updItem sku n u m i = { i with name := n, unit := u, min_qty := m } := by
  unfold updItem; rw [if_pos h]

theorem updItem_of_neg (sku n u : String) (m : Int) (i : Item)
    (h : ¬ ((i.sku == sku) = true)) :
    updItem sku n u m i = i := by
  unfold updItem; rw [if_neg h]

theorem updItem_idem (sku n u : String) (m : Int) (i : Item) :
    updItem sku n u m (updItem sku n u m i) = updItem sku n u m i := by
  cases h : (i.sku == sku) with
  | true => simp [updItem, h]
  | false => simp [updItem, h]

theorem find?_map_updItem (sku n u : String) (m : Int) (l : List Item) :
    (l.map (updItem sku n u m)).find? (fun i => i.sku == sku)
      = (l.find? (fun i => i.sku == sku)).map (updItem sku n u m) := by
  induction l with
  | nil => rfl
  | cons a t ih =>
    cases h : (a.sku == sku) with
    | true => simp only [List.map_cons, List.find?_cons, updItem_beq, h, Option.map_some']
    | false => simp only [List.map_cons, List.find?_cons, updItem_beq, h, ih]

theorem countP_sku_le_one (sku : String) (l : List Item)
    (h : l.Pairwise (fun a b => a.sku ≠ b.sku)) :
    l.countP (fun i => i.sku == sku) ≤ 1 := by
  induction l with
  | nil => simp
  | cons a t ih =>
    rcases List.pairwise_cons.mp h with ⟨ha, ht⟩
    rw [List.countP_cons]
    by_cases hp : (a.sku == sku) = true
    · have h0 : t.countP (fun i => i.sku == sku) = 0 := by
        rw [List.countP_eq_zero]
        intro b hb hbs
        rw [beq_iff_eq] at hp hbs
        exact ha b hb (by rw [hp, hbs])
      rw [h0, if_pos hp]
    · rw [if_neg hp]
      have := ih ht
      omega

/-- If every item row is a fixed point of the pending UPDATE and the sku
is present, upsert takes the update branch and changes nothing. -/
theorem upsert_item_noop (db : DB) (sku n u : String) (m : Int) (it0 : Item)
    (hfix : ∀ i ∈ db.items, updItem sku n u m i = i)
    (hfind : get_item_by_sku db sku = some it0) :
    upsert_item db sku n u m = (db, some it0) := by
  unfold upsert_item
  rw [hfind]
  show ({ db with items := db.items.map (updItem sku n u m) },
      get_item_by_sku { db with items := db.items.map (updItem sku n u m) } sku)
    = (db, some it0)
  rw [(List.map_congr_left hfix).trans (List.map_id' db.items)]
  show (db, get_item_by_sku db sku) = (db, some it0)
  rw [hfind]

/-- Claim C6: upsert is idempotent — applying it twice with identical
arguments leaves exactly one item row for the sku and the second
application changes nothing at all (same state, same returned record);
the returned record carries the given attributes, keeps the existing id
when the sku was present, and otherwise is the freshly inserted row with
its assigned id. -/
theorem upsert_item_idempotent (db : DB) (sku n u : String) (m : Int) (hwf : db.WF) :
    ((upsert_item db sku n u m).1.items.countP (fun i => i.sku == sku) = 1) ∧
    (upsert_item (upsert_item db sku n u m).1 sku n u m = upsert_item db sku n u m) ∧
    ∃ it, (upsert_item db sku n u m).2 = some it ∧
      it.sku = sku ∧ it.name = n ∧ it.unit = u ∧ it.min_qty = m ∧
      (∀ old, get_item_by_sku db sku = some old → it.id = old.id) ∧
      (get_item_by_sku db sku = none →
        it.id = db.next_item_id ∧ (upsert_item db sku n u m).1.items = db.items ++ [it]) := by
  have hwfl : db.items.Pairwise (fun a b => a.sku ≠ b.sku) := hwf
  cases hfind : get_item_by_sku db sku with
  | none =>
    have hnone : db.items.find? (fun i => i.sku == sku) = none := hfind
    have hall : ∀ x ∈ db.items, ¬ ((x.sku == sku) = true) := fun x hx =>
      List.find?_eq_none.mp hnone x hx
    have hu : upsert_item db sku n u m
        = ({ db with
               items := db.items ++ [⟨db.next_item_id, sku, n, u, m⟩],
               next_item_id := db.next_item_id + 1 },
           some ⟨db.next_item_id, sku, n, u, m⟩) := by
      unfold upsert_item
      rw [hfind]
    refine ⟨?_, ?_, ?_⟩
    · rw [hu]
      show (db.items ++ [(⟨db.next_item_id, sku, n, u, m⟩ : Item)]).countP
          (fun i => i.sku == sku) = 1
      rw [List.countP_append, List.countP_eq_zero.mpr hall]
      simp
    · have hfix : ∀ i ∈ db.items ++ [(⟨db.next_item_id, sku, n, u, m⟩ : Item)],
          updItem sku n u m i = i := by
        intro i hi
        rcases List.mem_append.mp hi with hi | hi
        · exact updItem_of_neg sku n u m i (hall i hi)
        · rcases List.mem_singleton.mp hi with rfl
          exact (updItem_of_pos sku n u m _ (beq_self_eq_true sku)).trans rfl
      have hfind1 : get_item_by_sku ({ db with
              items := db.items ++ [(⟨db.next_item_id, sku, n, u, m⟩ : Item)],
              next_item_id := db.next_item_id + 1 } : DB) sku
          = some ⟨db.next_item_id, sku, n, u, m⟩ := by
        show (db.items ++ [(⟨db.next_item_id, sku, n, u, m⟩ : Item)]).find?
            (fun i => i.sku == sku) = _
        rw [List.find?_append, hnone, Option.none_or]
        exact List.find?_cons_of_pos _ (beq_self_eq_true sku)
      rw [hu]
      rw [upsert_item_noop _ sku n u m _ hfix hfind1]
    · refine ⟨⟨db.next_item_id, sku, n, u, m⟩, ?_, rfl, rfl, rfl, rfl, ?_, ?_⟩
      · rw [hu]
      · intro old hold; exact Option.noConfusion hold
      · intro _; exact ⟨rfl, by rw [hu]⟩
  | some old =>
    have hsome : db.items.find? (fun i => i.sku == sku) = some old := hfind
    have hpold := List.find?_some hsome
    have hmem : old ∈ db.items := List.mem_of_find?_eq_some hsome
    have hu : upsert_item db sku n u m
        = ({ db with items := db.items.map (updItem sku n u m) },
           get_item_by_sku ({ db with items := db.items.map (updItem sku n u m) } : DB) sku) := by
      unfold upsert_item
      rw [hfind]
    have hfind1 : get_item_by_sku ({ db with
          items := db.items.map (updItem sku n u m) } : DB) sku
        = some (updItem sku n u m old) := by
      show (db.items.map (updItem sku n u m)).find? (fun i => i.sku == sku) = _
      rw [find?_map_updItem, hsome]
      rfl
    have hcount1 : db.items.countP (fun i => i.sku == sku) = 1 := by
      have hle := countP_sku_le_one sku db.items hwfl
      have hpos : 0 < db.items.countP (fun i => i.sku == sku) :=
        List.countP_pos_iff.mpr ⟨old, hmem, hpold⟩
      omega
    refine ⟨?_, ?_, ?_⟩
    · rw [hu]
      show (db.items.map (updItem sku n u m)).countP (fun i => i.sku == sku) = 1
      rw [List.countP_map]
      have hc : ∀ x ∈ db.items,
          (((fun i => i.sku == sku) ∘ updItem sku n u m) x = true)
            ↔ ((x.sku == sku) = true) := by
        intro x _
        rw [Function.comp_apply, updItem_beq]
      rw [List.countP_congr hc, hcount1]
    · have hfix : ∀ i ∈ db.items.map (updItem sku n u m), updItem sku n u m i = i := by
        intro i hi
        rcases List.mem_map.mp hi with ⟨j, _, rfl⟩
        exact updItem_idem sku n u m j
      rw [hu]
      rw [upsert_item_noop _ sku n u m _ hfix hfind1, hfind1]
    · refine ⟨updItem sku n u m old, ?_, ?_, ?_, ?_, ?_, ?_, ?_⟩
      · rw [hu, hfind1]
      · rw [updItem_sku]; exact beq_iff_eq.mp hpold
      · rw [updItem_of_pos sku n u m old hpold]
      · rw [updItem_of_pos sku n u m old hpold]
      · rw [updItem_of_pos sku n u m old hpold]
      · intro old' hold'
        injection hold' with h
        rw [updItem_id, h]
      · intro h0; exact Option.noConfusion h0

/-- Witness for C6: two identical upserts of `W-1` on the empty database
leave one matching row and the second application is a no-op. -/
theorem upsert_item_idempotent_witness :
    ((upsert_item emptyDB "W-1" "widget" "pcs" 3).1.items.countP
        (fun i => i.sku == "W-1") = 1) ∧
    (upsert_item (upsert_item emptyDB "W-1" "widget" "pcs" 3).1 "W-1" "widget" "pcs" 3
      = upsert_item emptyDB "W-1" "widget" "pcs" 3) :=
  ⟨(upsert_item_idempotent emptyDB "W-1" "widget" "pcs" 3 List.Pairwise.nil).1,
   (upsert_item_idempotent emptyDB "W-1" "widget" "pcs" 3 List.Pairwise.nil).2.1⟩

/-- Claim C7, amended: history is the movements of the item ordered by
timestamp descending with id descending as tie-break; for a NONNEGATIVE
limit it is truncated to at most limit entries, while a negative limit
returns all entries (SQLite treats a negative LIMIT as unbounded); and in
the concrete scenario — inbound +3 then outbound -1 on a fresh item, with
a nondecreasing clock — the outbound entry precedes the inbound one. -/
theorem iter_history_spec (db : DB) (item : Item) (limit : Int) :
    List.Sorted histOrder (iter_history db item limit) ∧
    (∀ mv ∈ iter_history db item limit, mv.item_id = item.id) ∧
    (0 ≤ limit → ((iter_history db item limit).length : Int) ≤ limit) ∧
    (limit < 0 →
      (iter_history db item limit).Perm
        (db.moves.filter (fun m => m.item_id == item.id))) ∧
    (∀ t1 t2 : Nat, t1 ≤ t2 →
      iter_history (dbH t1 t2) itemH 5
        = [⟨2, 1, -1, "出庫", "", t2⟩, ⟨1, 1, 3, "入庫", "", t1⟩]) := by
  refine ⟨?_, ?_, ?_, ?_, ?_⟩
  · simp only [iter_history]
    by_cases hl : limit < 0
    · rw [if_pos hl]
      exact List.sorted_insertionSort histOrder _
    · rw [if_neg hl]
      exact List.Pairwise.sublist (List.take_sublist _ _)
        (List.sorted_insertionSort histOrder _)
  · intro mv hmv
    simp only [iter_history] at hmv
    have hmem : mv ∈ List.insertionSort histOrder
        (db.moves.filter (fun m => m.item_id == item.id)) := by
      by_cases hl : limit < 0
      · rw [if_pos hl] at hmv; exact hmv
      · rw [if_neg hl] at hmv; exact List.mem_of_mem_take hmv
    rw [List.mem_insertionSort] at hmem
    exact beq_iff_eq.mp (List.mem_filter.mp hmem).2
  · intro hl
    simp only [iter_history]
    rw [if_neg (not_lt.mpr hl)]
    have := List.length_take_le limit.toNat
      (List.insertionSort histOrder (db.moves.filter (fun m => m.item_id == item.id)))
    omega
  · intro hl
    simp only [iter_history]
    rw [if_pos hl]
    exact List.perm_insertionSort histOrder _
  · intro t1 t2 ht
    have hdb : dbH t1 t2
        = ⟨[itemH], [⟨1, 1, 3, "入庫", "", t1⟩, ⟨2, 1, -1, "出庫", "", t2⟩], 2, 3⟩ := rfl
    have hno : ¬ histOrder ⟨1, 1, 3, "入庫", "", t1⟩ ⟨2, 1, -1, "出庫", "", t2⟩ := by
      simp only [histOrder]
      omega
    rw [hdb]
    simp only [iter_history]
    rw [if_neg (by omega : ¬ (5:Int) < 0)]
    simp [List.filter, List.insertionSort, List.orderedInsert, hno, itemH]

/-- Witness for C7 at clock values 3 and 8: the outbound entry comes
first and the result respects the limit. -/
theorem iter_history_spec_witness :
    iter_history (dbH 3 8) itemH 5
      = [⟨2, 1, -1, "出庫", "", 8⟩, ⟨1, 1, 3, "入庫", "", 3⟩] ∧
    ((iter_history (dbH 3 8) itemH 5).length : Int) ≤ 5 :=
  ⟨(iter_history_spec (dbH 3 8) itemH 5).2.2.2.2 3 8 (by decide),
   (iter_history_spec (dbH 3 8) itemH 5).2.2.1 (by decide)⟩

/-- Counterexample to C7 as stated: with the negative limit -1 (which
SQLite reads as "no limit") the history of an item with two movements has
2 entries, not at most -1 — "truncated to at most limit entries" fails
for negative limits. -/
theorem iter_history_negative_limit_cex :
    ¬ (((iter_history (dbH 0 0) itemH (-1)).length : Int) ≤ -1) := by decide

/-- Claim C9: list_with_stock yields one (item, current stock) pair per
registered item, ordered by sku ascending, each pair carrying the
recomputed stock of its item; export_stocks_csv renders exactly these
pairs, in this order, with the derived below_min flag emitted as the
literal "true" when current stock is strictly below min_qty and "false"
otherwise. -/
theorem list_with_stock_spec (db : DB) :
    ((list_items_with_stock db).map Prod.fst).Perm db.items ∧
    List.Sorted skuLe ((list_items_with_stock db).map Prod.fst) ∧
    (∀ p ∈ list_items_with_stock db, p.2 = get_stock db p.1) ∧
    export_stocks_csv db = (list_items_with_stock db).map (fun p =>
      [p.1.sku, p.1.name, p.1.unit, toString p.2, toString p.1.min_qty,
       if p.2 < p.1.min_qty then "true" else "false"]) := by
  have hmap : (list_items_with_stock db).map Prod.fst
      = List.insertionSort skuLe db.items := by
    simp only [list_items_with_stock, List.map_map]
    exact List.map_id' _
  refine ⟨?_, ?_, ?_, rfl⟩
  · rw [hmap]; exact List.perm_insertionSort skuLe db.items
  · rw [hmap]; exact List.sorted_insertionSort skuLe db.items
  · intro p hp
    simp only [list_items_with_stock, List.mem_map] at hp
    obtain ⟨i, _, rfl⟩ := hp
    rfl

/-- Witness for C9 at the single-item state: the pair for `A-001` is
listed with its recomputed stock and the item listing is a permutation of
the items table. -/
theorem list_with_stock_spec_witness :
    (itemA, (0 : Int)) ∈ list_items_with_stock dbA ∧
    (0 : Int) = get_stock dbA itemA ∧
    ((list_items_with_stock dbA).map Prod.fst).Perm dbA.items :=
  ⟨by decide, (list_with_stock_spec dbA).2.2.1 (itemA, 0) (by decide),
   (list_with_stock_spec dbA).1⟩

end Inventory
